import Mathlib

/-!
Verification of the HPLC-signal peak-integration pipeline
(`src/peak_integration.py`) against its design specification.

The pipeline's arrays are shallowly embedded as Lean lists: chromatogram
intensities and finite differences are integers, quadrature results are
rationals.  Python/numpy indexing out of range is modelled with `List.getD`
where the source's semantics make the access total (numpy's zero-extended
convolution), and with `Option` where the source stores the string
sentinel "None".
-/

set_option autoImplicit false
set_option linter.unusedVariables false

namespace HPLC

instance instDecEqExcept {ε α : Type} [DecidableEq ε] [DecidableEq α] :
    DecidableEq (Except ε α) := fun x y =>
  match x, y with
  | Except.ok a, Except.ok b =>
      if h : a = b then Decidable.isTrue (h ▸ rfl)
      else Decidable.isFalse (fun hh => h (Except.ok.inj hh))
  | Except.error a, Except.error b =>
      if h : a = b then Decidable.isTrue (h ▸ rfl)
      else Decidable.isFalse (fun hh => h (Except.error.inj hh))
  | Except.ok _, Except.error _ => Decidable.isFalse (fun hh => Except.noConfusion hh)
  | Except.error _, Except.ok _ => Decidable.isFalse (fun hh => Except.noConfusion hh)

/-- `np.convolve(y, [1, -1])` in numpy's default "full" mode
(line 32 of the source): the output has length `n + 1` and
`out[i] = y[i] - y[i-1]`, the input zero-extended on both sides.
numpy rejects an empty input array, so theorems assume `0 < y.length`. -/
def conv1m1 (y : List ℤ) : List ℤ :=
  (List.range (y.length + 1)).map
    (fun i => y.getD i 0 - if i = 0 then 0 else y.getD (i - 1) 0)

/-- The slice `dy[1:]` of a full convolution by `[1, -1]`: the operator that
`read_chromatogram` actually stores in its output columns (lines 32-37). -/
def storedDiff (y : List ℤ) : List ℤ :=
  (conv1m1 y).tail

/-- `read_chromatogram`, lines 29-39: `dy = np.convolve(y, [1,-1])`,
`ddy = np.convolve(dy[1:], [1,-1])`, and the returned DataFrame holds the
columns `(channel, "First diff", "Second diff") = (y, dy[1:], ddy[1:])`.
File reading is out of scope; the signal column `y` is the input. -/
def read_chromatogram (y : List ℤ) : List ℤ × List ℤ × List ℤ :=
  (y, storedDiff y, storedDiff (storedDiff y))

lemma length_conv1m1 (y : List ℤ) : (conv1m1 y).length = y.length + 1 := by
  simp [conv1m1]

lemma getD_conv1m1 (y : List ℤ) (i : ℕ) (h : i < y.length + 1) :
    (conv1m1 y).getD i 0 = y.getD i 0 - if i = 0 then 0 else y.getD (i - 1) 0 := by
  simp only [conv1m1, List.getD_eq_getElem?_getD, List.getElem?_map,
    List.getElem?_range, h, if_true]
  rfl

lemma getD_tail (l : List ℤ) (i : ℕ) : l.tail.getD i 0 = l.getD (i + 1) 0 := by
  cases l <;> simp [List.getD]

lemma length_storedDiff (y : List ℤ) : (storedDiff y).length = y.length := by
  simp [storedDiff, List.length_tail, length_conv1m1]

lemma getD_storedDiff (y : List ℤ) (i : ℕ) (h : i < y.length) :
    (storedDiff y).getD i 0 = y.getD (i + 1) 0 - y.getD i 0 := by
  rw [storedDiff, getD_tail, getD_conv1m1 y (i + 1) (by omega)]
  simp

lemma getD_storedDiff_last (y : List ℤ) (h : 0 < y.length) :
    (storedDiff y).getD (y.length - 1) 0 = - y.getD (y.length - 1) 0 := by
  have h1 : y.length - 1 < y.length := by omega
  rw [getD_storedDiff y _ h1]
  have h2 : y.length - 1 + 1 = y.length := by omega
  rw [h2, List.getD_eq_default _ _ (le_refl _), zero_sub]

/-- C10: the stored "First diff" and "Second diff" columns both have length
`n`, the stored first-difference entry at `i < n - 1` is
`signal[i+1] - signal[i]`, and its final entry is `-signal[n-1]`. -/
theorem C10_stored_columns (y : List ℤ) (i : ℕ)
    (hy : 0 < y.length) (hi : i + 1 < y.length) :
    (read_chromatogram y).2.1.length = y.length ∧
    (read_chromatogram y).2.2.length = y.length ∧
    (read_chromatogram y).2.1.getD i 0 = y.getD (i + 1) 0 - y.getD i 0 ∧
    (read_chromatogram y).2.1.getD (y.length - 1) 0 = - y.getD (y.length - 1) 0 := by
  refine ⟨length_storedDiff y, ?_, getD_storedDiff y i (by omega),
    getD_storedDiff_last y hy⟩
  rw [show (read_chromatogram y).2.2 = storedDiff (storedDiff y) from rfl,
    length_storedDiff, length_storedDiff]

theorem C10_stored_columns_witness :
    0 < ([1, 2, 3] : List ℤ).length ∧ 0 + 1 < ([1, 2, 3] : List ℤ).length ∧
    ((read_chromatogram [1, 2, 3]).2.1.length = ([1, 2, 3] : List ℤ).length ∧
     (read_chromatogram [1, 2, 3]).2.2.length = ([1, 2, 3] : List ℤ).length ∧
     (read_chromatogram [1, 2, 3]).2.1.getD 0 0 =
       ([1, 2, 3] : List ℤ).getD (0 + 1) 0 - ([1, 2, 3] : List ℤ).getD 0 0 ∧
     (read_chromatogram [1, 2, 3]).2.1.getD (([1, 2, 3] : List ℤ).length - 1) 0 =
       - ([1, 2, 3] : List ℤ).getD (([1, 2, 3] : List ℤ).length - 1) 0) :=
  ⟨by decide, by decide, C10_stored_columns [1, 2, 3] 0 (by decide) (by decide)⟩

/-- C2 counterexample: the first-derivative column produced by the stage does
not satisfy `firstDiff[0] = signal[0]`: on the signal `[1, 3]` the stored
entry at index 0 is `2`, not `1`. -/
theorem C2_firstDiff_head_counterexample :
    ¬ ((read_chromatogram [1, 3]).2.1.getD 0 0 = ([1, 3] : List ℤ).getD 0 0) := by
  decide

/-- C2 amended: the first-derivative column actually produced satisfies
`firstDiff[i] = signal[i+1] - signal[i]` for `i < n - 1` with final entry
`-signal[n-1]` (not the claimed `firstDiff[0] = signal[0]` convention), and
the second-derivative column is exactly that same stored difference operator
applied to the first-derivative column. -/
theorem C2_derivative_columns (y : List ℤ) (i : ℕ)
    (hy : 0 < y.length) (hi : i + 1 < y.length) :
    (read_chromatogram y).2.1.getD i 0 = y.getD (i + 1) 0 - y.getD i 0 ∧
    (read_chromatogram y).2.1.getD (y.length - 1) 0 = - y.getD (y.length - 1) 0 ∧
    (read_chromatogram y).2.2 = storedDiff ((read_chromatogram y).2.1) :=
  ⟨getD_storedDiff y i (by omega), getD_storedDiff_last y hy, rfl⟩

theorem C2_derivative_columns_witness :
    0 < ([1, 3, 6] : List ℤ).length ∧ 0 + 1 < ([1, 3, 6] : List ℤ).length ∧
    ((read_chromatogram [1, 3, 6]).2.1.getD 0 0 =
       ([1, 3, 6] : List ℤ).getD (0 + 1) 0 - ([1, 3, 6] : List ℤ).getD 0 0 ∧
     (read_chromatogram [1, 3, 6]).2.1.getD (([1, 3, 6] : List ℤ).length - 1) 0 =
       - ([1, 3, 6] : List ℤ).getD (([1, 3, 6] : List ℤ).length - 1) 0 ∧
     (read_chromatogram [1, 3, 6]).2.2 =
       storedDiff ((read_chromatogram [1, 3, 6]).2.1)) :=
  ⟨by decide, by decide, C2_derivative_columns [1, 3, 6] 0 (by decide) (by decide)⟩

/-! ### peak_finder: interval assignment (lines 112-117) -/

/-- A row of the pre-peak table produced by `find_peaks`: (index, height). -/
abbrev Peak := ℕ × ℤ

/-- The boolean-mask filter of lines 114-117:
`pre_peak_data[(pre_peak_data.iloc[:,0] > interval[0]) & (pre_peak_data.iloc[:,0] < interval[1])]` —
strict inequalities on both sides. -/
def interval_filter (peaks : List Peak) (iv : ℤ × ℤ) : List Peak :=
  peaks.filter (fun p => decide (iv.1 < (p.1 : ℤ)) && decide ((p.1 : ℤ) < iv.2))

/-- Lines 112-117: one dictionary entry per caller-supplied interval, holding
the filtered peak table (the dictionary key is the stringified interval;
duplicated intervals produce identical tables, so a list of pairs is a
faithful model). -/
def peak_assign (peaks : List Peak) (intervals : List (ℤ × ℤ)) :
    List ((ℤ × ℤ) × List Peak) :=
  intervals.map (fun iv => (iv, interval_filter peaks iv))

lemma mem_interval_filter (peaks : List Peak) (iv : ℤ × ℤ) (p : Peak) :
    p ∈ interval_filter peaks iv ↔
      p ∈ peaks ∧ iv.1 < (p.1 : ℤ) ∧ (p.1 : ℤ) < iv.2 := by
  simp [interval_filter, List.mem_filter, and_assoc]

/-- C6: a peak belongs to the table of interval `[s, e]` iff
`s < index < e` (strict on both sides); every interval of the request list
gets exactly its own filtered table (so a peak matching several intervals is
in each of them); and a peak whose index matches no interval of the list is
in no table of the output. -/
theorem C6_interval_assignment (peaks : List Peak) (intervals : List (ℤ × ℤ))
    (iv : ℤ × ℤ) (p : Peak) (entry : (ℤ × ℤ) × List Peak)
    (hiv : iv ∈ intervals) (hentry : entry ∈ peak_assign peaks intervals) :
    ((iv, interval_filter peaks iv) ∈ peak_assign peaks intervals) ∧
    (p ∈ interval_filter peaks iv ↔
       p ∈ peaks ∧ iv.1 < (p.1 : ℤ) ∧ (p.1 : ℤ) < iv.2) ∧
    ((intervals.all
        (fun jv => !(decide (jv.1 < (p.1 : ℤ)) && decide ((p.1 : ℤ) < jv.2)))) = true →
      p ∉ entry.2) := by
  refine ⟨List.mem_map_of_mem _ hiv, mem_interval_filter peaks iv p, ?_⟩
  intro hall hp
  rcases List.mem_map.mp hentry with ⟨jv, hjv, rfl⟩
  rcases (mem_interval_filter peaks jv p).mp hp with ⟨-, h1, h2⟩
  have := List.all_eq_true.mp hall jv hjv
  simp only [Bool.not_eq_true', Bool.and_eq_false_iff, decide_eq_false_iff_not] at this
  rcases this with h | h
  · exact h h1
  · exact h h2

theorem C6_interval_assignment_witness :
    ((3, 10) : ℤ × ℤ) ∈ [((3, 10) : ℤ × ℤ)] ∧
    (((3, 10) : ℤ × ℤ), interval_filter [(5, 100)] (3, 10)) ∈
        peak_assign [(5, 100)] [((3, 10) : ℤ × ℤ)] ∧
    (((5, 100) : Peak) ∈ interval_filter [(5, 100)] (3, 10) ↔
       ((5, 100) : Peak) ∈ [((5, 100) : Peak)] ∧ (3 : ℤ) < 5 ∧ (5 : ℤ) < 10) ∧
    (([((3, 10) : ℤ × ℤ)].all
        (fun jv => !(decide (jv.1 < ((5 : ℕ) : ℤ)) && decide (((5 : ℕ) : ℤ) < jv.2)))) = true →
      ((5, 100) : Peak) ∉ (((3, 10) : ℤ × ℤ), interval_filter [(5, 100)] (3, 10)).2) :=
  ⟨by decide,
   C6_interval_assignment [(5, 100)] [(3, 10)] (3, 10) (5, 100)
     ((3, 10), interval_filter [(5, 100)] (3, 10)) (by decide)
     (List.mem_map_of_mem _ (by decide))⟩

/-! ### Input validation (C5) -/

/-- C5 counterexample: no validation exists anywhere in the source.  The
derivative stage fully executes on the length-1 signal `[5]` (length < 3) and
returns complete columns, and an interval with `start ≥ end` silently yields
an empty peak table rather than an error. -/
theorem C5_no_failfast_counterexample :
    read_chromatogram [5] = ([5], [-5], [5]) ∧
    interval_filter [(2, 100)] (3, 3) = [] ∧
    peak_assign [(2, 100)] [((3, 3) : ℤ × ℤ)] = [((3, 3), [])] := by
  decide

/-- C5 amended: the source performs no input validation.  Every nonempty
signal — including those of length < 3 — is processed by the derivative
stage, which returns full-length columns, and an interval with
`start ≥ end` produces an empty peak table, silently. -/
theorem C5_no_validation (y : List ℤ) (peaks : List Peak) (s e : ℤ)
    (_hy : 0 < y.length) (hse : e ≤ s) :
    (read_chromatogram y).2.1.length = y.length ∧
    (read_chromatogram y).2.2.length = y.length ∧
    interval_filter peaks (s, e) = [] := by
  refine ⟨length_storedDiff y, ?_, ?_⟩
  · rw [show (read_chromatogram y).2.2 = storedDiff (storedDiff y) from rfl,
      length_storedDiff, length_storedDiff]
  · rw [interval_filter, List.filter_eq_nil_iff]
    intro p _
    simp only [Bool.and_eq_true, decide_eq_true_eq, not_and]
    intro h1 h2
    exact absurd (h1.trans h2) (not_lt.mpr hse)

theorem C5_no_validation_witness :
    0 < ([7] : List ℤ).length ∧ (3 : ℤ) ≤ 3 ∧
    ((read_chromatogram [7]).2.1.length = ([7] : List ℤ).length ∧
     (read_chromatogram [7]).2.2.length = ([7] : List ℤ).length ∧
     interval_filter [(2, 100)] (3, 3) = []) :=
  ⟨by decide, by decide, C5_no_validation [7] [(2, 100)] 3 3 (by decide) (by decide)⟩

/-! ### limits_finder: slope-threshold boundary scans (lines 158-194) -/

/-- The forward scan of lines 170-175: starting at index `j`, step upward for
`fuel` steps and return the first index whose absolute first difference is
below `min_slope`; `none` when the loop falls off the end of the array. -/
def scan_up (dy : List ℤ) (ms : ℤ) : ℕ → ℕ → Option ℕ
  | _, 0 => none
  | j, fuel + 1 =>
      if |dy.getD j 0| < ms then some j else scan_up dy ms (j + 1) fuel

/-- The backward scan of lines 178-182: `for j in reversed(range(0, m))`,
returning the first (i.e. largest) index `j < m` whose absolute first
difference is below `min_slope`. -/
def scan_down (dy : List ℤ) (ms : ℤ) : ℕ → Option ℕ
  | 0 => none
  | k + 1 => if |dy.getD k 0| < ms then some k else scan_down dy ms k

/-- `for j in range(peak_idx[i] + width, len(dy))` (line 170). -/
def forward_limit (dy : List ℤ) (p w : ℕ) (ms : ℤ) : Option ℕ :=
  scan_up dy ms (p + w) (dy.length - (p + w))

/-- `for j in reversed(range(0, peak_idx[i] - width))` (line 178): the scan
starts at `p - width - 1`, not at `p - width`. -/
def backward_limit (dy : List ℤ) (p w : ℕ) (ms : ℤ) : Option ℕ :=
  scan_down dy ms (p - w)

/-- `limit_idx = [left, right]` of lines 158-182; `"None"` is `none`. -/
def limit_idx (dy : List ℤ) (p w : ℕ) (ms : ℤ) : Option ℕ × Option ℕ :=
  (backward_limit dy p w ms, forward_limit dy p w ms)

/-- `limit_val = [y[left], y[right]]` of lines 158-182. -/
def limit_val (y dy : List ℤ) (p w : ℕ) (ms : ℤ) : Option ℤ × Option ℤ :=
  ((backward_limit dy p w ms).map (fun j => y.getD j 0),
   (forward_limit dy p w ms).map (fun j => y.getD j 0))

lemma scan_up_some (dy : List ℤ) (ms : ℤ) :
    ∀ (fuel j j' : ℕ), scan_up dy ms j fuel = some j' →
      j ≤ j' ∧ j' < j + fuel ∧ |dy.getD j' 0| < ms ∧
      ∀ k, j ≤ k → k < j' → ms ≤ |dy.getD k 0| := by
  intro fuel
  induction fuel with
  | zero => intro j j' h; simp [scan_up] at h
  | succ n ih =>
    intro j j' h
    simp only [scan_up] at h
    by_cases hc : |dy.getD j 0| < ms
    · rw [if_pos hc] at h
      obtain rfl : j = j' := Option.some.inj h
      exact ⟨le_refl _, by omega, hc, fun k h1 h2 => by omega⟩
    · rw [if_neg hc] at h
      obtain ⟨h1, h2, h3, h4⟩ := ih (j + 1) j' h
      refine ⟨by omega, by omega, h3, ?_⟩
      intro k hk1 hk2
      rcases Nat.eq_or_lt_of_le hk1 with rfl | hk
      · exact not_lt.mp hc
      · exact h4 k hk hk2

lemma scan_down_some (dy : List ℤ) (ms : ℤ) :
    ∀ (m j' : ℕ), scan_down dy ms m = some j' →
      j' < m ∧ |dy.getD j' 0| < ms ∧
      ∀ k, j' < k → k < m → ms ≤ |dy.getD k 0| := by
  intro m
  induction m with
  | zero => intro j' h; simp [scan_down] at h
  | succ n ih =>
    intro j' h
    simp only [scan_down] at h
    by_cases hc : |dy.getD n 0| < ms
    · rw [if_pos hc] at h
      obtain rfl : n = j' := Option.some.inj h
      exact ⟨by omega, hc, fun k h1 h2 => by omega⟩
    · rw [if_neg hc] at h
      obtain ⟨h1, h2, h3⟩ := ih j' h
      refine ⟨by omega, h2, ?_⟩
      intro k hk1 hk2
      rcases (by omega : k = n ∨ k < n) with rfl | hk
      · exact not_lt.mp hc
      · exact h3 k hk1 hk

lemma all_range_slope (dy : List ℤ) (ms : ℤ) (s n : ℕ)
    (h : ∀ k, s ≤ k → k < s + n → ms ≤ |dy.getD k 0|) :
    (List.range' s n).all (fun k => decide (ms ≤ |dy.getD k 0|)) = true := by
  rw [List.all_eq_true]
  intro x hx
  rw [List.mem_range'_1] at hx
  exact decide_eq_true (h x hx.1 hx.2)

/-- C4 counterexample: the backward scan does not start at `p - edgeMargin`.
On the first-difference magnitudes below, with peak index `p = 7`,
`width = 5` and `min_slope = 1`, both boundaries resolve; index
`p - 5 = 2` satisfies the slope condition, so the claimed backward scan
"from p − edgeMargin" would stop there — but the code's left boundary is
index 1, because `range(0, p - width)` starts testing at `p - width - 1`. -/
theorem C4_backward_start_counterexample :
    backward_limit [5, 0, 0, 5, 5, 5, 5, 5, 5, 5, 5, 5, 0, 5] 7 5 1 = some 1 ∧
    forward_limit [5, 0, 0, 5, 5, 5, 5, 5, 5, 5, 5, 5, 0, 5] 7 5 1 = some 12 ∧
    |([5, 0, 0, 5, 5, 5, 5, 5, 5, 5, 5, 5, 0, 5] : List ℤ).getD (7 - 5) 0| < 1 ∧
    (some 1 : Option ℕ) ≠ some (7 - 5) := by
  decide

/-- C4 amended: for a peak at `p` whose boundaries both resolve,
`rightIndex` is the smallest index `j ≥ p + width` with `|dy[j]| < min_slope`
and `rightValue = signal[j]`; `leftIndex` is the largest index
`j ≤ p - width - 1` (the backward scan starts one position below
`p - width`, not at it) with `|dy[j]| < min_slope`, and `leftValue` is the
signal value there. -/
theorem C4_boundary_scan (y dy : List ℤ) (p w : ℕ) (ms : ℤ) (jl jr : ℕ)
    (hb : backward_limit dy p w ms = some jl)
    (hf : forward_limit dy p w ms = some jr) :
    (p + w ≤ jr ∧ jr < dy.length ∧ |dy.getD jr 0| < ms ∧
      (List.range' (p + w) (jr - (p + w))).all
        (fun k => decide (ms ≤ |dy.getD k 0|)) = true) ∧
    (jl < p - w ∧ |dy.getD jl 0| < ms ∧
      (List.range' (jl + 1) (p - w - (jl + 1))).all
        (fun k => decide (ms ≤ |dy.getD k 0|)) = true) ∧
    limit_idx dy p w ms = (some jl, some jr) ∧
    limit_val y dy p w ms = (some (y.getD jl 0), some (y.getD jr 0)) := by
  have hlen : p + w ≤ dy.length := by
    by_contra hlt
    have h0 : dy.length - (p + w) = 0 := by omega
    rw [forward_limit, h0] at hf
    simp [scan_up] at hf
  obtain ⟨hf1, hf2, hf3, hf4⟩ := scan_up_some dy ms (dy.length - (p + w)) (p + w) jr hf
  obtain ⟨hb1, hb2, hb3⟩ := scan_down_some dy ms (p - w) jl hb
  refine ⟨⟨hf1, by omega, hf3, ?_⟩, ⟨hb1, hb2, ?_⟩, ?_, ?_⟩
  · exact all_range_slope dy ms (p + w) (jr - (p + w))
      (fun k h1 h2 => hf4 k h1 (by omega))
  · exact all_range_slope dy ms (jl + 1) (p - w - (jl + 1))
      (fun k h1 h2 => hb3 k (by omega) (by omega))
  · rw [limit_idx, hb, hf]
  · rw [limit_val, hb, hf]; rfl

theorem C4_boundary_scan_witness :
    backward_limit [5, 0, 0, 5, 5, 5, 5, 5, 5, 5, 5, 5, 0, 5] 7 5 1 = some 1 ∧
    forward_limit [5, 0, 0, 5, 5, 5, 5, 5, 5, 5, 5, 5, 0, 5] 7 5 1 = some 12 ∧
    ((7 + 5 ≤ 12 ∧ 12 < ([5, 0, 0, 5, 5, 5, 5, 5, 5, 5, 5, 5, 0, 5] : List ℤ).length ∧
      |([5, 0, 0, 5, 5, 5, 5, 5, 5, 5, 5, 5, 0, 5] : List ℤ).getD 12 0| < 1 ∧
      (List.range' (7 + 5) (12 - (7 + 5))).all
        (fun k => decide ((1 : ℤ) ≤
          |([5, 0, 0, 5, 5, 5, 5, 5, 5, 5, 5, 5, 0, 5] : List ℤ).getD k 0|)) = true) ∧
     (1 < 7 - 5 ∧ |([5, 0, 0, 5, 5, 5, 5, 5, 5, 5, 5, 5, 0, 5] : List ℤ).getD 1 0| < 1 ∧
      (List.range' (1 + 1) (7 - 5 - (1 + 1))).all
        (fun k => decide ((1 : ℤ) ≤
          |([5, 0, 0, 5, 5, 5, 5, 5, 5, 5, 5, 5, 0, 5] : List ℤ).getD k 0|)) = true) ∧
     limit_idx [5, 0, 0, 5, 5, 5, 5, 5, 5, 5, 5, 5, 0, 5] 7 5 1 = (some 1, some 12) ∧
     limit_val [10, 11, 12, 13, 14, 15, 16, 17, 18, 19, 20, 21, 22, 23]
         [5, 0, 0, 5, 5, 5, 5, 5, 5, 5, 5, 5, 0, 5] 7 5 1 =
       (some (([10, 11, 12, 13, 14, 15, 16, 17, 18, 19, 20, 21, 22, 23] : List ℤ).getD 1 0),
        some (([10, 11, 12, 13, 14, 15, 16, 17, 18, 19, 20, 21, 22, 23] : List ℤ).getD 12 0))) :=
  ⟨by decide, by decide,
   C4_boundary_scan [10, 11, 12, 13, 14, 15, 16, 17, 18, 19, 20, 21, 22, 23]
     [5, 0, 0, 5, 5, 5, 5, 5, 5, 5, 5, 5, 0, 5] 7 5 1 1 12 (by decide) (by decide)⟩

/-! ### Peak detection (lines 95-105)

`scipy.signal.find_peaks` is library code that is not part of this
repository; the definitions below are modelled from the specification's
description of the detector (spec 4.2). -/

/-- Modelled from the spec: `scipy.signal.find_peaks` candidate test — a
candidate index is a strict local maximum among its immediate neighbors,
its intensity is at least `minHeight`, and its vertical distance to each
neighbor is at least the noise threshold `thr`. -/
def is_candidate (y : List ℤ) (minHeight thr : ℤ) (i : ℕ) : Bool :=
  decide (0 < i) && decide (i + 1 < y.length) &&
  decide (y.getD (i - 1) 0 < y.getD i 0) &&
  decide (y.getD (i + 1) 0 < y.getD i 0) &&
  decide (minHeight ≤ y.getD i 0) &&
  decide (thr ≤ y.getD i 0 - y.getD (i - 1) 0) &&
  decide (thr ≤ y.getD i 0 - y.getD (i + 1) 0)

/-- Modelled from the spec: minimum-separation pruning — walk the candidate
list (higher-priority candidates first) and accept each candidate that is at
least `dist` indices away from every already-accepted one. -/
def prune_close (dist : ℕ) : List ℕ → List ℕ → List ℕ
  | acc, [] => acc
  | acc, c :: rest =>
      if acc.all (fun a => decide (dist ≤ max a c - min a c)) then
        prune_close dist (c :: acc) rest
      else prune_close dist acc rest

/-- Modelled from the spec: `scipy.signal.find_peaks` — candidates in
descending height order are pruned by minimum separation, and the surviving
peak indices are listed in increasing order.  The source calls this with
`height=4000, threshold=1, distance=2` (lines 95-105). -/
def find_peaks (y : List ℤ) (minHeight thr : ℤ) (dist : ℕ) : List ℕ :=
  let cands := (List.range y.length).filter (is_candidate y minHeight thr)
  let kept := prune_close dist []
    (cands.insertionSort (fun a b => y.getD b 0 ≤ y.getD a 0))
  (List.range y.length).filter
    (fun i => is_candidate y minHeight thr i && kept.contains i)

lemma find_peaks_subset_candidates (y : List ℤ) (minHeight thr : ℤ) (dist : ℕ)
    (i : ℕ) (hi : i ∈ find_peaks y minHeight thr dist) :
    is_candidate y minHeight thr i = true := by
  simp only [find_peaks, List.mem_filter, Bool.and_eq_true] at hi
  exact hi.2.1

/-- C7: every detected peak index carries an intensity of at least
`minHeight` and is a strict local maximum among its immediate neighbors
(stated over the whole output list), and whenever no index of the signal
qualifies as a candidate the detector returns the empty list — a value, not
an error. -/
theorem C7_detected_peaks (y : List ℤ) (minHeight thr : ℤ) (dist : ℕ) :
    (find_peaks y minHeight thr dist).all
      (fun i => decide (minHeight ≤ y.getD i 0) &&
        decide (y.getD (i - 1) 0 < y.getD i 0) &&
        decide (y.getD (i + 1) 0 < y.getD i 0) &&
        decide (0 < i) && decide (i + 1 < y.length)) = true ∧
    ((List.range y.length).all
        (fun k => !(is_candidate y minHeight thr k)) = true →
      find_peaks y minHeight thr dist = []) := by
  constructor
  · rw [List.all_eq_true]
    intro i hi
    have hc := find_peaks_subset_candidates y minHeight thr dist i hi
    simp only [is_candidate, Bool.and_eq_true, decide_eq_true_eq] at hc
    obtain ⟨⟨⟨⟨⟨⟨h1, h2⟩, h3⟩, h4⟩, h5⟩, -⟩, -⟩ := hc
    simp only [Bool.and_eq_true, decide_eq_true_eq]
    exact ⟨⟨⟨⟨h5, h3⟩, h4⟩, h1⟩, h2⟩
  · intro hnone
    simp only [List.all_eq_true, Bool.not_eq_true', List.mem_range] at hnone
    simp only [find_peaks]
    rw [List.filter_eq_nil_iff]
    intro a ha
    rw [List.mem_range] at ha
    simp [hnone a ha]

theorem C7_detected_peaks_witness :
    (find_peaks [0, 5000, 0] 4000 1 2).all
      (fun i => decide ((4000 : ℤ) ≤ ([0, 5000, 0] : List ℤ).getD i 0) &&
        decide (([0, 5000, 0] : List ℤ).getD (i - 1) 0 < ([0, 5000, 0] : List ℤ).getD i 0) &&
        decide (([0, 5000, 0] : List ℤ).getD (i + 1) 0 < ([0, 5000, 0] : List ℤ).getD i 0) &&
        decide (0 < i) && decide (i + 1 < ([0, 5000, 0] : List ℤ).length)) = true ∧
    find_peaks [7, 7, 7, 7] 4000 1 2 = [] :=
  ⟨(C7_detected_peaks [0, 5000, 0] 4000 1 2).1,
   (C7_detected_peaks [7, 7, 7, 7] 4000 1 2).2 (by decide)⟩

/-! ### limits_finder as a table transform, and peak_integration -/

/-- `limits_finder` (lines 127-194) for one interval's peak table:
`width = 5` is hardcoded at line 167; each peak row is kept and extended
with its `limits idx` and `limits val` pairs. -/
def limits_finder (y dy : List ℤ) (peaks : List Peak) (ms : ℤ) :
    List (Peak × (Option ℕ × Option ℕ) × (Option ℤ × Option ℤ)) :=
  peaks.map (fun p => (p, limit_idx dy p.1 5 ms, limit_val y dy p.1 5 ms))

/-- Modelled from the spec: the trapezoidal rule at unit sample spacing,
`scipy`'s fallback for fewer than 3 samples (0 or 1 samples integrate
to 0, as `np.trapz` does). `scipy.integrate` is library code that is not in
this repository. -/
def trapezoidRule : List ℤ → ℚ
  | a :: b :: rest => ((a : ℚ) + (b : ℚ)) / 2 + trapezoidRule (b :: rest)
  | _ => 0

/-- Modelled from the spec: composite Simpson quadrature at unit spacing
over consecutive interval pairs (an odd number of samples). -/
def simpsonOdd : List ℤ → ℚ
  | a :: b :: c :: rest =>
      ((a : ℚ) + 4 * (b : ℚ) + (c : ℚ)) / 3 + simpsonOdd (c :: rest)
  | _ => 0

/-- Modelled from the spec: the parabolic correction `scipy` documents for
the final interval when the sample count is even (fitted through the last
three samples); only used on lists of length at least 4. -/
def evenCorrection (ys : List ℤ) : ℚ :=
  (5 * (ys.getD (ys.length - 1) 0 : ℚ) + 8 * (ys.getD (ys.length - 2) 0 : ℚ)
    - (ys.getD (ys.length - 3) 0 : ℚ)) / 12

/-- Modelled from the spec: `scipy.integrate.simpson(y, x=None, dx=1.0)` —
composite Simpson quadrature for at least 3 samples (final-interval
correction when the sample count is even), trapezoidal value otherwise. -/
def simpson (ys : List ℤ) : ℚ :=
  if ys.length < 3 then trapezoidRule ys
  else if ys.length % 2 = 1 then simpsonOdd ys
  else simpsonOdd ys.dropLast + evenCorrection ys

/-- Line 217: `y = points[(points > limit[0]) & (points < limit[1])]` — the
boolean mask compares every raw signal VALUE against the two stored limit
entries (which are boundary indices), keeping order. -/
def value_mask (points : List ℤ) (a b : ℤ) : List ℤ :=
  points.filter (fun v => decide (a < v) && decide (v < b))

/-- Lines 216-218, one loop iteration.  A stored `"None"` sentinel reaches
the numpy comparison `points > "None"`, which does not order floats against
strings (`TypeError`); modelled as `Except.error`. -/
def integrate_one (points : List ℤ) (lim : Option ℕ × Option ℕ) :
    Except String ℚ :=
  match lim with
  | (some a, some b) =>
      Except.ok (simpson (value_mask points (a : ℤ) (b : ℤ)))
  | _ => Except.error "TypeError: comparison of float array and str"

/-- The integration loop of lines 213-220 over a table's "limits idx"
column; the loop dies at the first unresolved limit pair. -/
def integrate_table (points : List ℤ)
    (limits : List (Option ℕ × Option ℕ)) : Except String (List ℚ) :=
  limits.mapM (integrate_one points)

/-- `peak_integration(chroma_data, peaks_info)` (lines 197-225).  The body
iterates over the module-level global `peaks_data` (line 206), not over its
`peaks_info` parameter, so the embedding passes that global explicitly as a
third argument; the second argument is dead in the source body. -/
def peak_integration (points : List ℤ)
    (peaks_info peaks_data : List (Option ℕ × Option ℕ)) :
    Except String (List ℚ) :=
  integrate_table points peaks_data

/-- C1 evaluation at the failing input: with resolved boundary indices
`(2, 7)`, the samples handed to quadrature are the value-filtered
subsequence `[3, 4, 5, 6, 3, 5]` — which contains the sample of value 5
stored at position 9, outside the index range — and not the contiguous
slice `signal[2:8] = [3, 4, 5, 6, 3, 100]`. -/
theorem C1_selection_eval :
    value_mask [0, 100, 3, 4, 5, 6, 3, 100, 100, 5] 2 7 = [3, 4, 5, 6, 3, 5] ∧
    (([0, 100, 3, 4, 5, 6, 3, 100, 100, 5] : List ℤ).drop 2).take (7 + 1 - 2) =
      [3, 4, 5, 6, 3, 100] ∧
    value_mask [0, 100, 3, 4, 5, 6, 3, 100, 100, 5] 2 7 ≠
      (([0, 100, 3, 4, 5, 6, 3, 100, 100, 5] : List ℤ).drop 2).take (7 + 1 - 2) ∧
    integrate_one [0, 100, 3, 4, 5, 6, 3, 100, 100, 5] (some 2, some 7) =
      Except.ok (simpson (value_mask [0, 100, 3, 4, 5, 6, 3, 100, 100, 5] 2 7)) :=
  ⟨by decide, by decide, by decide, rfl⟩

/-- C3 evaluation at the failing input: a backward scan that reaches the
array start records the sentinel `none` for the left boundary (a value, not
an exception, and distinguishable from a resolved boundary `some 0`), the
peak row stays in the limits table — but the integration loop does not skip
it: the unresolved pair makes `peak_integration` die with a `TypeError`
instead of returning a table with that peak's area left undefined. -/
theorem C3_unresolved_eval :
    limit_idx [9, 9, 9, 9, 9, 9, 9, 8, 0, 9] 2 5 1 = (none, some 8) ∧
    (none : Option ℕ) ≠ some 0 ∧
    (limits_finder [0, 0, 0, 0, 0, 0, 0, 0, 0, 0]
        [9, 9, 9, 9, 9, 9, 9, 8, 0, 9] [(2, 9)] 1).length = 1 ∧
    peak_integration [0, 0, 0, 0, 0, 0, 0, 0, 0, 0]
        [(Option.none, some 8)] [(Option.none, some 8)] =
      Except.error "TypeError: comparison of float array and str" :=
  ⟨by decide, by decide, by decide, rfl⟩

/-- C9 counterexample: `peak_integration` is not a function of its explicit
parameters — with the caller's signal and the `peaks_info` argument held
fixed, changing the module-level `peaks_data` global changes the result. -/
theorem C9_global_read_counterexample :
    peak_integration [0, 1, 2, 3, 4, 5] [(some 0, some 3)] [(some 0, some 3)] ≠
      peak_integration [0, 1, 2, 3, 4, 5] [(some 0, some 3)] [(Option.none, some 3)] := by
  intro h
  exact Except.noConfusion h

/-- C9 amended: `peak_integration`'s result is determined by the signal and
the module-level `peaks_data` table alone; its `peaks_info` parameter is
dead — replacing it by anything leaves the output unchanged. -/
theorem C9_peak_integration_ignores_parameter (points : List ℤ)
    (p₁ p₂ g : List (Option ℕ × Option ℕ)) :
    peak_integration points p₁ g = peak_integration points p₂ g :=
  rfl

/-- C8: every resolved limit pair is integrated through the (modelled)
`scipy.integrate.simpson` at unit spacing; that quadrature is the
trapezoidal rule below 3 samples, pure composite Simpson for an odd sample
count of at least 3, and composite Simpson plus the documented final-interval
correction for an even sample count of at least 4. -/
theorem C8_quadrature_split (points : List ℤ) (a b : ℕ) :
    integrate_one points (some a, some b) =
      Except.ok (simpson (value_mask points (a : ℤ) (b : ℤ))) ∧
    ((value_mask points (a : ℤ) (b : ℤ)).length < 3 →
      simpson (value_mask points (a : ℤ) (b : ℤ)) =
        trapezoidRule (value_mask points (a : ℤ) (b : ℤ))) ∧
    (3 ≤ (value_mask points (a : ℤ) (b : ℤ)).length →
      (value_mask points (a : ℤ) (b : ℤ)).length % 2 = 1 →
      simpson (value_mask points (a : ℤ) (b : ℤ)) =
        simpsonOdd (value_mask points (a : ℤ) (b : ℤ))) ∧
    (3 ≤ (value_mask points (a : ℤ) (b : ℤ)).length →
      (value_mask points (a : ℤ) (b : ℤ)).length % 2 = 0 →
      simpson (value_mask points (a : ℤ) (b : ℤ)) =
        simpsonOdd (value_mask points (a : ℤ) (b : ℤ)).dropLast +
          evenCorrection (value_mask points (a : ℤ) (b : ℤ))) := by
  refine ⟨rfl, ?_, ?_, ?_⟩
  · intro h; rw [simpson, if_pos h]
  · intro h1 h2; rw [simpson, if_neg (by omega), if_pos h2]
  · intro h1 h2; rw [simpson, if_neg (by omega), if_neg (by omega)]

theorem C8_quadrature_split_witness :
    integrate_one [0, 1, 2, 0] (some 0, some 3) =
      Except.ok (simpson (value_mask [0, 1, 2, 0] 0 3)) ∧
    simpson (value_mask [9, 9, 1, 9] 0 3) =
      trapezoidRule (value_mask [9, 9, 1, 9] 0 3) ∧
    simpson (value_mask [9, 1, 2, 1, 9] 0 3) =
      simpsonOdd (value_mask [9, 1, 2, 1, 9] 0 3) ∧
    simpson (value_mask [1, 2, 1, 2] 0 3) =
      simpsonOdd (value_mask [1, 2, 1, 2] 0 3).dropLast +
        evenCorrection (value_mask [1, 2, 1, 2] 0 3) :=
  ⟨(C8_quadrature_split [0, 1, 2, 0] 0 3).1,
   (C8_quadrature_split [9, 9, 1, 9] 0 3).2.1 (by decide),
   (C8_quadrature_split [9, 1, 2, 1, 9] 0 3).2.2.1 (by decide) (by decide),
   (C8_quadrature_split [1, 2, 1, 2] 0 3).2.2.2 (by decide) (by decide)⟩

end HPLC
